import Mathlib

/-!
Verification of the browser-use DOM-to-agent bridge against its specification.

The development shallowly embeds:
* the data model of §3 of the spec (coordinates, viewport data, positions,
  DOM history elements, agent history records);
* the highlighting overlay (`browser_use/browser/manager/highlight_manager.py`),
  translated line by line into pure functions over an explicit draw-command log
  (the PIL image is modelled as the list of draw commands applied to it, and the
  font-metric oracle `textbbox` as an abstract measuring function);
* the history persistence (save / load of an `AgentHistoryList`) and the
  `get_file_upload_element` tree search, whose implementations are not part of
  the source tree and are therefore modelled from the spec's words.

Machine integers are modelled as `Int` (Python integers are unbounded, so no
wrap-around is involved); Python `%` on a positive divisor agrees with Lean's
`Int.emod`, which is what `%` denotes on `Int` here.
-/

namespace BrowserUse

/-- Simple geometry value used by the overlay renderer: left, top, width, height
(spec §3, `Position`, the legacy variant used for overlay rendering). -/
structure Position where
  left : Int
  top : Int
  width : Int
  height : Int
deriving DecidableEq, Repr

/-- Numeric (x, y) pair, page- or viewport-relative (spec §3, `Coordinates`). -/
structure Coordinates where
  x : Int
  y : Int
deriving DecidableEq, Repr

/-- Four corner coordinates plus center, width and height describing a node's
bounding quadrilateral in one coordinate space (spec §3, `CoordinateSet`). -/
structure CoordinateSet where
  top_left : Coordinates
  top_right : Coordinates
  bottom_left : Coordinates
  bottom_right : Coordinates
  center : Coordinates
  width : Int
  height : Int
deriving DecidableEq, Repr

/-- Scroll offsets and viewport size at capture time (spec §3, `ViewportInfo`). -/
structure ViewportInfo where
  scroll_x : Int
  scroll_y : Int
  width : Int
  height : Int
deriving DecidableEq, Repr

/-- Durable projection of an element node (spec §3, `DOM History Element`):
tag name, xpath, highlight index, ancestor tag-name path, attribute mapping,
shadow-root flag, optional CSS selector, optional coordinate sets, optional
viewport info, plus the optional `position` used only by the overlay renderer
(excluded from serialization per spec §6). -/
structure DOMHistoryElement where
  tag_name : String
  xpath : String
  highlight_index : Int
  entire_parent_branch_path : List String
  attributes : List (String × String)
  shadow_root : Bool
  css_selector : Option String
  page_coordinates : Option CoordinateSet
  viewport_coordinates : Option CoordinateSet
  viewport_info : Option ViewportInfo
  position : Option Position
deriving DecidableEq, Repr

/-! ## Highlighting overlay

Embedding of `HighlightManager` (src/browser_use/browser/manager/highlight_manager.py).
A PIL image is modelled as the list of draw commands that have been applied to
it, in order; `ImageDraw.rectangle` and `ImageDraw.text` append commands.
`ImageFont`/`textbbox` is modelled as an abstract measure oracle mapping the
label text to its (width, height). A raised Python exception is modelled as
`Except.error (message, image)` carrying the state of the in-place-mutated
image at the moment of the raise. -/

/-- Color argument of a PIL draw call: a hex string such as "#FF0000", an RGBA
tuple, or a named color such as "white". -/
inductive Color where
  | hex (s : String) : Color
  | rgba (c : Nat × Nat × Nat × Nat) : Color
  | named (s : String) : Color
deriving DecidableEq, Repr

/-- Draw command applied to the image: `rectangle [x0, y0, x1, y1]` with an
outline and fill color, or `text (x, y)` with a fill color. -/
inductive DrawCmd where
  | rectangle (x0 y0 x1 y1 : Int) (outline fill : Color) : DrawCmd
  | text (x y : Int) (content : String) (fill : Color) : DrawCmd
deriving DecidableEq, Repr

/-- Value of a single hex digit, upper or lower case. -/
def hexDigitVal (c : Char) : Option Nat :=
  if '0' ≤ c ∧ c ≤ '9' then some (c.toNat - '0'.toNat)
  else if 'a' ≤ c ∧ c ≤ 'f' then some (c.toNat - 'a'.toNat + 10)
  else if 'A' ≤ c ∧ c ≤ 'F' then some (c.toNat - 'A'.toNat + 10)
  else none

/-- Accumulating base-16 evaluation of a digit list; `none` on a non-digit. -/
def hexNatAux : List Char → Nat → Option Nat
  | [], acc => some acc
  | c :: cs, acc =>
    match hexDigitVal c with
    | some d => hexNatAux cs (16 * acc + d)
    | none => none

/-- Python `int(s, 16)` on a digit string: fails on the empty string or on a
non-digit character. -/
def hexNat (cs : List Char) : Option Nat :=
  match cs with
  | [] => none
  | _ => hexNatAux cs 0

/-- Python slice `s[a:b]` on a character list (for `0 ≤ a ≤ b`). -/
def sliceChars (cs : List Char) (a b : Nat) : List Char :=
  (cs.take b).drop a

/-- Python `lstrip('#')`: remove every leading '#' character. -/
def lstripHash : List Char → List Char
  | '#' :: cs => lstripHash cs
  | cs => cs

/-- Shared r, g, b part of `_hex_to_rgba`: strip leading '#' characters
(Python `lstrip('#')`) and read the three two-digit hex components
`int(hex_color[0:2], 16)`, `int(hex_color[2:4], 16)`, `int(hex_color[4:6], 16)`. -/
def hexRgb (hex_color : String) : Option (Nat × Nat × Nat) :=
  let cs := lstripHash hex_color.data
  match hexNat (sliceChars cs 0 2), hexNat (sliceChars cs 2 4), hexNat (sliceChars cs 4 6) with
  | some r, some g, some b => some (r, g, b)
  | _, _, _ => none

/-- `HighlightManager._hex_to_rgba`: r, g, b from the hex string plus
`int(alpha * 255)`. The alpha factor is modelled as the exact non-negative
fraction `alphaNum / alphaDen`, and Python's truncating `int()` as Nat floor
division, so the alpha byte is `alphaNum * 255 / alphaDen`. For the only value
used, `alpha = 0.1`, the exact product 25.5 truncates to 25, agreeing with
truncation of the binary floating-point product `0.1 * 255`. -/
def hex_to_rgba (hex_color : String) (alphaNum alphaDen : Nat) : Option (Nat × Nat × Nat × Nat) :=
  (hexRgb hex_color).map (fun rgb => (rgb.1, rgb.2.1, rgb.2.2, alphaNum * 255 / alphaDen))

/-- Palette of `HighlightManager._generate_color` (the local `colors` list). -/
def highlightColors : List String :=
  ["#FF0000", "#00FF00", "#0000FF", "#FFA500", "#800080", "#008080",
   "#FF69B4", "#4B0082", "#FF4500", "#2E8B57", "#DC143C", "#4682B4"]

/-- `HighlightManager._generate_color`: palette entry at `index % len(colors)`
plus its 10%-opacity RGBA version. An out-of-range palette lookup would raise
`IndexError` and an unparsable hex string `ValueError`; both are modelled as
`Except.error` (and proved unreachable below). -/
def generate_color (index : Int) : Except String (String × (Nat × Nat × Nat × Nat)) :=
  let colors := highlightColors
  let color_index := index % (colors.length : Int)
  match colors[color_index.toNat]? with
  | none => Except.error "IndexError"
  | some base_color =>
    match hex_to_rgba base_color 1 10 with
    | none => Except.error "ValueError"
    | some background_color => Except.ok (base_color, background_color)

/-- Label placement of `_create_highlight_element` (source lines 35-40): the
default is the box's top-right interior corner; when the box is narrower than
`label_width + 4` or shorter than `label_height + 4`, the label moves directly
above the box's top-right corner. Returns (label_left, label_top). -/
def labelPosition (position : Position) (label_width label_height : Int) : Int × Int :=
  if position.width < label_width + 4 ∨ position.height < label_height + 4 then
    (position.left + position.width - label_width, position.top - label_height - 2)
  else
    (position.left + position.width - label_width - 2, position.top + 2)

/-- `HighlightManager._create_highlight_element`, with the font-metric oracle
`measure` standing for `draw.textbbox` (label width and height of a text).
Mirrors the source order: compute the color, check `position`, draw the box
rectangle, compute the label geometry, draw the label background rectangle,
draw the label text. -/
def create_highlight_element (measure : String → Int × Int)
    (element : DOMHistoryElement) (image : List DrawCmd) :
    Except (String × List DrawCmd) (List DrawCmd) :=
  let index := element.highlight_index
  match generate_color index with
  | Except.error e => Except.error (e, image)
  | Except.ok (base_color, background_color) =>
    match element.position with
    | none => Except.error ("Position is required to highlight an element", image)
    | some position =>
      let image1 := image ++
        [DrawCmd.rectangle position.left position.top
          (position.left + position.width) (position.top + position.height)
          (Color.hex base_color) (Color.rgba background_color)]
      let label_text := toString index
      let label_width := (measure label_text).1
      let label_height := (measure label_text).2
      let lp := labelPosition position label_width label_height
      let image2 := image1 ++
        [DrawCmd.rectangle lp.1 lp.2 (lp.1 + label_width) (lp.2 + label_height)
          (Color.hex base_color) (Color.hex base_color)]
      let image3 := image2 ++ [DrawCmd.text lp.1 lp.2 label_text (Color.named "white")]
      Except.ok image3

/-- `HighlightManager.highlight_element`: iterate over the optional elements,
skip falsy (null) entries, draw each remaining one; a raised exception aborts
the loop, leaving the image as mutated so far and surfacing the message. -/
def highlight_element (measure : String → Int × Int) :
    List (Option DOMHistoryElement) → List DrawCmd → List DrawCmd × Option String
  | [], image => (image, none)
  | none :: rest, image => highlight_element measure rest image
  | some element :: rest, image =>
    match create_highlight_element measure element image with
    | Except.ok image2 => highlight_element measure rest image2
    | Except.error (e, image2) => (image2, some e)

/-- Sequential per-element draw step on a list of non-null elements; used to
state that `highlight_element` processes exactly the non-null entries in list
order. -/
def drawAll (measure : String → Int × Int) :
    List DOMHistoryElement → List DrawCmd → List DrawCmd × Option String
  | [], image => (image, none)
  | element :: rest, image =>
    match create_highlight_element measure element image with
    | Except.ok image2 => drawAll measure rest image2
    | Except.error (e, image2) => (image2, some e)

/-- Commands appended by one successful `_create_highlight_element` call for an
element with highlight index `i`, position `p`, outline color `c` and fill
color `f`: the bounding rectangle, the label background rectangle and the label
text. -/
def highlightCmds (measure : String → Int × Int) (i : Int) (p : Position)
    (c : String) (f : Nat × Nat × Nat × Nat) : List DrawCmd :=
  let label_text := toString i
  let lw := (measure label_text).1
  let lh := (measure label_text).2
  let lp := labelPosition p lw lh
  [DrawCmd.rectangle p.left p.top (p.left + p.width) (p.top + p.height)
     (Color.hex c) (Color.rgba f),
   DrawCmd.rectangle lp.1 lp.2 (lp.1 + lw) (lp.2 + lh) (Color.hex c) (Color.hex c),
   DrawCmd.text lp.1 lp.2 label_text (Color.named "white")]

/-! ## Persisted agent history (spec §6)

Modelled from the spec: the implementation of `AgentHistoryList.save_to_file`
and `AgentHistoryList.load_from_file` (browser_use/agent/views.py) is not part
of the source tree — only its test is — so the persisted-history document and
the save/load pair are modelled from spec §6: a JSON document holding a list of
step records, each with an optional decision payload, a list of action results
and a browser-state snapshot (url, title, screenshot string, tab list, list of
optional DOM history elements serialized with the `position` and parent fields
excluded and nested coordinate objects flattened to plain mappings). -/

/-- JSON-like nested value (the file contents; numerics are modelled as `Int`,
the exactly-representable supported numeric type). -/
inductive Json where
  | null : Json
  | bool (b : Bool) : Json
  | num (n : Int) : Json
  | str (s : String) : Json
  | arr (items : List Json) : Json
  | obj (fields : List (String × Json)) : Json

/-- Modelled from the spec: one entry of the browser-state tab list (spec §6
gives the snapshot a "tab list"; a tab is identified by page id, url and
title). -/
structure TabInfo where
  page_id : Int
  url : String
  title : String
deriving DecidableEq, Repr

/-- Modelled from the spec: one action result of a step record (spec §6; the
round-trip test exercises `is_done` and `extracted_content`, plus an optional
error message). -/
structure ActionResult where
  is_done : Option Bool
  extracted_content : Option String
  error : Option String
deriving DecidableEq, Repr

/-- Modelled from the spec: the browser-state snapshot of a step record
(spec §6): URL, title, screenshot string, tab list and the list of optional
DOM history elements. -/
structure BrowserStateHistory where
  url : String
  title : String
  tabs : List TabInfo
  interacted_element : List (Option DOMHistoryElement)
  screenshot : Option String
deriving DecidableEq, Repr

/-- Modelled from the spec: one step record of the persisted history (spec §6):
optional decision payload (kept as an opaque JSON value — LLM output parsing is
out of the core's scope), action results and browser-state snapshot. -/
structure AgentHistory where
  model_output : Option Json
  result : List ActionResult
  state : BrowserStateHistory

/-- Modelled from the spec: the persisted history is a list of step records. -/
structure AgentHistoryList where
  history : List AgentHistory

/-- Serialization of an optional value: `None` becomes JSON `null`. -/
def serOpt (f : α → Json) : Option α → Json
  | none => Json.null
  | some x => f x

/-- Parse an optional value: JSON `null` is `None`, anything else is parsed. -/
def parseOpt (f : Json → Option α) : Json → Option (Option α)
  | Json.null => some none
  | j => (f j).map some

/-- Parse every element of a list, failing if any element fails. -/
def parseList (f : Json → Option α) : List Json → Option (List α)
  | [] => some []
  | j :: js => do
    let a ← f j
    let as ← parseList f js
    pure (a :: as)

/-- Parse a JSON string. -/
def parseStr : Json → Option String
  | Json.str s => some s
  | _ => none

/-- Parse a plain string-to-string mapping. -/
def parseStrPairs : List (String × Json) → Option (List (String × String))
  | [] => some []
  | (k, Json.str v) :: rest => (parseStrPairs rest).map (fun tl => (k, v) :: tl)
  | _ => none

/-- Coordinates flattened to a plain mapping (spec §6). -/
def serCoordinates (c : Coordinates) : Json :=
  Json.obj [("x", Json.num c.x), ("y", Json.num c.y)]

/-- Parse flattened coordinates. -/
def parseCoordinates : Json → Option Coordinates
  | Json.obj [("x", Json.num x), ("y", Json.num y)] => some ⟨x, y⟩
  | _ => none

/-- CoordinateSet recursively flattened to a plain mapping (spec §6). -/
def serCoordinateSet (c : CoordinateSet) : Json :=
  Json.obj [("top_left", serCoordinates c.top_left),
    ("top_right", serCoordinates c.top_right),
    ("bottom_left", serCoordinates c.bottom_left),
    ("bottom_right", serCoordinates c.bottom_right),
    ("center", serCoordinates c.center),
    ("width", Json.num c.width),
    ("height", Json.num c.height)]

/-- Parse a flattened CoordinateSet. -/
def parseCoordinateSet : Json → Option CoordinateSet
  | Json.obj [("top_left", tl), ("top_right", tr), ("bottom_left", bl),
      ("bottom_right", br), ("center", ce), ("width", Json.num w), ("height", Json.num h)] => do
    let tl2 ← parseCoordinates tl
    let tr2 ← parseCoordinates tr
    let bl2 ← parseCoordinates bl
    let br2 ← parseCoordinates br
    let ce2 ← parseCoordinates ce
    pure ⟨tl2, tr2, bl2, br2, ce2, w, h⟩
  | _ => none

/-- ViewportInfo flattened to a plain mapping (spec §6). -/
def serViewportInfo (v : ViewportInfo) : Json :=
  Json.obj [("scroll_x", Json.num v.scroll_x), ("scroll_y", Json.num v.scroll_y),
    ("width", Json.num v.width), ("height", Json.num v.height)]

/-- Parse a flattened ViewportInfo. -/
def parseViewportInfo : Json → Option ViewportInfo
  | Json.obj [("scroll_x", Json.num sx), ("scroll_y", Json.num sy),
      ("width", Json.num w), ("height", Json.num h)] => some ⟨sx, sy, w, h⟩
  | _ => none

/-- DOM history element serialized per spec §3/§6: every populated field except
`position` (and the nonexistent parent links). -/
def serDOMHistoryElement (e : DOMHistoryElement) : Json :=
  Json.obj [("tag_name", Json.str e.tag_name),
    ("xpath", Json.str e.xpath),
    ("highlight_index", Json.num e.highlight_index),
    ("entire_parent_branch_path", Json.arr (e.entire_parent_branch_path.map Json.str)),
    ("attributes", Json.obj (e.attributes.map (fun kv => (kv.1, Json.str kv.2)))),
    ("shadow_root", Json.bool e.shadow_root),
    ("css_selector", serOpt Json.str e.css_selector),
    ("page_coordinates", serOpt serCoordinateSet e.page_coordinates),
    ("viewport_coordinates", serOpt serCoordinateSet e.viewport_coordinates),
    ("viewport_info", serOpt serViewportInfo e.viewport_info)]

/-- Parse a serialized DOM history element; the excluded `position` field is
restored as `none`. -/
def parseDOMHistoryElement : Json → Option DOMHistoryElement
  | Json.obj [("tag_name", Json.str tag), ("xpath", Json.str xp),
      ("highlight_index", Json.num hi), ("entire_parent_branch_path", Json.arr pbs),
      ("attributes", Json.obj attrs), ("shadow_root", Json.bool sr),
      ("css_selector", cs), ("page_coordinates", pc),
      ("viewport_coordinates", vc), ("viewport_info", vi)] => do
    let path ← parseList parseStr pbs
    let attrs2 ← parseStrPairs attrs
    let cs2 ← parseOpt parseStr cs
    let pc2 ← parseOpt parseCoordinateSet pc
    let vc2 ← parseOpt parseCoordinateSet vc
    let vi2 ← parseOpt parseViewportInfo vi
    pure ⟨tag, xp, hi, path, attrs2, sr, cs2, pc2, vc2, vi2, none⟩
  | _ => none

/-- Serialized tab-list entry. -/
def serTabInfo (t : TabInfo) : Json :=
  Json.obj [("page_id", Json.num t.page_id), ("url", Json.str t.url), ("title", Json.str t.title)]

/-- Parse a tab-list entry. -/
def parseTabInfo : Json → Option TabInfo
  | Json.obj [("page_id", Json.num pid), ("url", Json.str u), ("title", Json.str t)] =>
    some ⟨pid, u, t⟩
  | _ => none

/-- Serialized action result. -/
def serActionResult (r : ActionResult) : Json :=
  Json.obj [("is_done", serOpt Json.bool r.is_done),
    ("extracted_content", serOpt Json.str r.extracted_content),
    ("error", serOpt Json.str r.error)]

/-- Parse a JSON boolean. -/
def parseBool : Json → Option Bool
  | Json.bool b => some b
  | _ => none

/-- Parse an action result. -/
def parseActionResult : Json → Option ActionResult
  | Json.obj [("is_done", d), ("extracted_content", ec), ("error", er)] => do
    let d2 ← parseOpt parseBool d
    let ec2 ← parseOpt parseStr ec
    let er2 ← parseOpt parseStr er
    pure ⟨d2, ec2, er2⟩
  | _ => none

/-- Serialized browser-state snapshot. -/
def serBrowserStateHistory (s : BrowserStateHistory) : Json :=
  Json.obj [("url", Json.str s.url), ("title", Json.str s.title),
    ("tabs", Json.arr (s.tabs.map serTabInfo)),
    ("interacted_element", Json.arr (s.interacted_element.map (serOpt serDOMHistoryElement))),
    ("screenshot", serOpt Json.str s.screenshot)]

/-- Parse a browser-state snapshot. -/
def parseBrowserStateHistory : Json → Option BrowserStateHistory
  | Json.obj [("url", Json.str u), ("title", Json.str t), ("tabs", Json.arr tabs),
      ("interacted_element", Json.arr ies), ("screenshot", sc)] => do
    let tabs2 ← parseList parseTabInfo tabs
    let ies2 ← parseList (parseOpt parseDOMHistoryElement) ies
    let sc2 ← parseOpt parseStr sc
    pure ⟨u, t, tabs2, ies2, sc2⟩
  | _ => none

/-- Serialized step record. -/
def serAgentHistory (h : AgentHistory) : Json :=
  Json.obj [("model_output", serOpt (fun j => j) h.model_output),
    ("result", Json.arr (h.result.map serActionResult)),
    ("state", serBrowserStateHistory h.state)]

/-- Parse a step record. -/
def parseAgentHistory : Json → Option AgentHistory
  | Json.obj [("model_output", mo), ("result", Json.arr rs), ("state", st)] => do
    let mo2 ← parseOpt some mo
    let rs2 ← parseList parseActionResult rs
    let st2 ← parseBrowserStateHistory st
    pure ⟨mo2, rs2, st2⟩
  | _ => none

/-- `AgentHistoryList.save_to_file`, modelled from the spec: the produced file
is the JSON document holding the list of step records. -/
def save_to_file (l : AgentHistoryList) : Json :=
  Json.obj [("history", Json.arr (l.history.map serAgentHistory))]

/-- `AgentHistoryList.load_from_file`, modelled from the spec: parse the JSON
document back into an `AgentHistoryList`, failing on a malformed document. -/
def load_from_file : Json → Option AgentHistoryList
  | Json.obj [("history", Json.arr hs)] => (parseList parseAgentHistory hs).map AgentHistoryList.mk
  | _ => none

/-- Supported-types condition on the optional decision payload: an absent
payload or any non-null JSON value (a JSON `null` payload is indistinguishable
from an absent one in the file). -/
def supportedPayload : Option Json → Bool
  | some Json.null => false
  | _ => true

/-- Supported-types condition on a step record: the decision payload is not a
JSON `null` and no interacted element carries the non-serialized `position`
field (spec §6 excludes `position` from the file, so it is not a supported
round-trip field). -/
def supportedAgentHistory (h : AgentHistory) : Bool :=
  supportedPayload h.model_output &&
    h.state.interacted_element.all (fun o =>
      match o with
      | none => true
      | some e => e.position.isNone)

/-- Supported-types condition on a whole history list. -/
def supportedAgentHistoryList (l : AgentHistoryList) : Bool :=
  l.history.all supportedAgentHistory

/-! ## Element tree model and `get_file_upload_element` (spec §4.1)

Modelled from the spec: `DOMElementNode.get_file_upload_element`
(browser_use/dom/views.py) is not part of the source tree — only its test is —
so the element tree and the search are modelled from spec §4.1: the search
looks for a descendant-or-self upload-capable input depth-first in pre-order;
if nothing is found in the subtree and the node has a parent, it retries from
each of the parent's other children (siblings) and continues upward, covering
(per the spec's result contract) the whole reachable graph from the starting
node — in particular each ancestor element passed on the way up is itself
examined. Text nodes are not inspected and do not recurse. The parent
back-reference is embedded without reference cycles as a zipper: a focused node
plus the stack of ancestor contexts (spec §9 design note). -/

/-- Element tree node (spec §3): an element with tag, attribute mapping and
ordered children, or a text node. Fields irrelevant to the upload search
(visibility and interactivity flags, coordinates) are omitted by the spec's
description of the search, which inspects only tags, attributes and
structure. -/
inductive DOMNode where
  | text (content : String) : DOMNode
  | element (tag : String) (attrs : List (String × String)) (children : List DOMNode) : DOMNode

/-- Upload-capable input test on tag and attributes: an `input` element whose
`type` attribute is `file`. -/
def isFileInputTag (tag : String) (attrs : List (String × String)) : Bool :=
  tag == "input" && (attrs.lookup "type" == some "file")

/-- Upload-capable input test on a node; text nodes never match. -/
def isFileInput : DOMNode → Bool
  | DOMNode.text _ => false
  | DOMNode.element tag attrs _ => isFileInputTag tag attrs

mutual
/-- Depth-first pre-order list of the upload-capable inputs of a subtree. -/
def fileUploadElements : DOMNode → List DOMNode
  | DOMNode.text _ => []
  | DOMNode.element tag attrs children =>
    (if isFileInputTag tag attrs then [DOMNode.element tag attrs children] else []) ++
      fileUploadElementsList children
/-- Depth-first pre-order list of the upload-capable inputs of a forest. -/
def fileUploadElementsList : List DOMNode → List DOMNode
  | [] => []
  | c :: cs => fileUploadElements c ++ fileUploadElementsList cs
end

/-- First upload-capable input of a depth-first pre-order search of a subtree:
the head of the pre-order match list. -/
def findInSubtree (t : DOMNode) : Option DOMNode :=
  (fileUploadElements t).head?

/-- Ancestor context of a zipper location: the parent element's tag and
attributes, the siblings before the focus (nearest first) and the siblings
after it (document order). -/
structure DOMCtx where
  tag : String
  attrs : List (String × String)
  before : List DOMNode
  after : List DOMNode

/-- Zipper location: the focused node and the stack of ancestor contexts,
innermost first. This embeds the parent back-reference without cycles. -/
structure DOMLoc where
  focus : DOMNode
  path : List DOMCtx

/-- Rebuild the parent element of a focused node from its context. -/
def plugNode (n : DOMNode) (c : DOMCtx) : DOMNode :=
  DOMNode.element c.tag c.attrs (c.before.reverse ++ n :: c.after)

/-- Rebuild the whole tree (the root) from a zipper location. -/
def plug (l : DOMLoc) : DOMNode :=
  l.path.foldl plugNode l.focus

/-- Upward phase of the search, after the focus subtree (already searched as
`n`) held no match: examine the parent element itself, then each of the
parent's other children (siblings before the focus, then after), and continue
upward. -/
def searchUp : DOMNode → List DOMCtx → Option DOMNode
  | _, [] => none
  | n, c :: rest =>
    let parent := plugNode n c
    if isFileInput parent then some parent
    else
      match c.before.reverse.findSome? findInSubtree with
      | some r => some r
      | none =>
        match c.after.findSome? findInSubtree with
        | some r => some r
        | none => searchUp parent rest

/-- Modelled from the spec: `get_file_upload_element` (spec §4.1) — search the
focus subtree depth-first pre-order; if nothing is found there, retry from the
siblings and continue upward; return the first element found or `none` when no
upload-capable input exists in the whole reachable graph. -/
def get_file_upload_element (l : DOMLoc) : Option DOMNode :=
  match findInSubtree l.focus with
  | some r => some r
  | none => searchUp l.focus l.path

/-! ## Concrete fixtures

Inputs used to instantiate the theorems below; they mirror the repository's
tests (`test_highlight_manager.py`, `test_views.py`). -/

/-- Font oracle giving every label a 10×5 bounding box. -/
def measureC : String → Int × Int := fun _ => (10, 5)

/-- Font oracle giving every label a 25×7 bounding box (wider than 20px). -/
def measureWide : String → Int × Int := fun _ => (25, 7)

/-- Element with `position = None` (the fixture of
`test_highlight_no_position_raises_valueerror`). -/
def elemNoPos : DOMHistoryElement :=
  ⟨"div", "/div", 0, [], [], false, none, none, none, none, none⟩

/-- Drawable element with a 100×50 box at the origin and highlight index 1. -/
def elemWithPos : DOMHistoryElement :=
  ⟨"a", "/a", 1, [], [], false, none, none, none, none, some ⟨0, 0, 100, 50⟩⟩

/-- Element at `{left: 10, top: 10, width: 20, height: 8}` with highlight
index 5 (the overlay scenario of spec §8). -/
def elemSmallBox : DOMHistoryElement :=
  ⟨"button", "/button", 5, [], [], false, none, none, none, none, some ⟨10, 10, 20, 8⟩⟩

/-- The history list of `test_save_and_load_from_file`: one entry, no decision
payload, one done action result with extracted content, a browser-state
snapshot with empty tab and interacted-element lists. -/
def testHistoryList : AgentHistoryList :=
  ⟨[⟨none, [⟨some true, some "Test content", none⟩],
     ⟨"https://example.com", "Test Page", [], [], some "test.png"⟩⟩]⟩

/-- The file-input node of `test_get_file_upload_element`. -/
def fileInputNode : DOMNode :=
  DOMNode.element "input" [("type", "file")] []

/-- The body > div > input[type=file] tree of `test_get_file_upload_element`. -/
def treeWithInput : DOMNode :=
  DOMNode.element "body" [] [DOMNode.element "div" [] [fileInputNode]]

/-- The body > div > text tree without any file input. -/
def treeWithoutInput : DOMNode :=
  DOMNode.element "body" [] [DOMNode.element "div" [] [DOMNode.text "Some text"]]

/-- A start location focused on an input-free div whose sibling subtree holds
the file input: the search must go up and find it among the siblings. -/
def divStartLoc : DOMLoc :=
  ⟨DOMNode.element "div" [] [DOMNode.text "Some text"],
   [⟨"body", [], [], [DOMNode.element "div" [] [fileInputNode]]⟩]⟩

/-! ## Helper lemmas for the overlay -/

/-- Every palette slot below 12 holds a parsable hex color. -/
theorem palette_ok (k : Nat) (hk : k < 12) :
    ∃ c f, highlightColors[k]? = some c ∧ hex_to_rgba c 1 10 = some f := by
  interval_cases k <;> exact ⟨_, _, rfl, rfl⟩

/-- Characterization of `_generate_color`: for every integer index it succeeds
and returns the palette entry at `index % 12` with its parsed RGBA fill. -/
theorem generate_color_char (index : Int) :
    ∃ c f, highlightColors[(index % 12).toNat]? = some c ∧
      hex_to_rgba c 1 10 = some f ∧ generate_color index = Except.ok (c, f) := by
  have h0 : 0 ≤ index % 12 := Int.emod_nonneg index (by norm_num)
  have h1 : index % 12 < 12 := Int.emod_lt_of_pos index (by norm_num)
  have hk : (index % 12).toNat < 12 := by omega
  obtain ⟨c, f, hc, hf⟩ := palette_ok _ hk
  refine ⟨c, f, hc, hf, ?_⟩
  show (match highlightColors[(index % 12).toNat]? with
    | none => (Except.error "IndexError" : Except String (String × (Nat × Nat × Nat × Nat)))
    | some base_color =>
      match hex_to_rgba base_color 1 10 with
      | none => Except.error "ValueError"
      | some background_color => Except.ok (base_color, background_color)) = Except.ok (c, f)
  rw [hc]
  simp only [hf]

/-- An element without position data makes `_create_highlight_element` raise
the missing-position `ValueError`, with the image untouched. -/
theorem create_highlight_element_err (m : String → Int × Int) (e : DOMHistoryElement)
    (img : List DrawCmd) (hp : e.position = none) :
    create_highlight_element m e img =
      Except.error ("Position is required to highlight an element", img) := by
  obtain ⟨c, f, _, _, hgc⟩ := generate_color_char e.highlight_index
  simp only [create_highlight_element, hgc, hp]

/-- An element with position data makes `_create_highlight_element` succeed,
appending exactly the box rectangle, label rectangle and label text. -/
theorem create_highlight_element_ok (m : String → Int × Int) (e : DOMHistoryElement)
    (img : List DrawCmd) (p : Position) (hp : e.position = some p) :
    ∃ c f, generate_color e.highlight_index = Except.ok (c, f) ∧
      create_highlight_element m e img =
        Except.ok (img ++ highlightCmds m e.highlight_index p c f) := by
  obtain ⟨c, f, _, _, hgc⟩ := generate_color_char e.highlight_index
  refine ⟨c, f, hgc, ?_⟩
  simp only [create_highlight_element, hgc, hp, highlightCmds]
  simp

/-! ## Claim theorems -/

/-- Claim C3: for every integer highlight index, the outline color is the
palette entry at position `index % 12`, the palette has exactly 12 entries, and
the choice is deterministic: equal indices give identical results. -/
theorem claim_C3_palette_color (index : Int) :
    highlightColors.length = 12 ∧
    (generate_color index).toOption.map Prod.fst = highlightColors[(index % 12).toNat]? ∧
    (∀ j : Int, index = j → generate_color index = generate_color j) := by
  obtain ⟨c, f, hc, _, hg⟩ := generate_color_char index
  refine ⟨rfl, ?_, ?_⟩
  · rw [hg, hc]
    rfl
  · intro j hj
    rw [hj]

/-- Witness for C3 at index 3. -/
theorem claim_C3_witness :
    (generate_color 3).toOption.map Prod.fst = highlightColors[((3 : Int) % 12).toNat]? ∧
    generate_color 3 = generate_color 3 :=
  ⟨(claim_C3_palette_color 3).2.1, (claim_C3_palette_color 3).2.2 3 rfl⟩

/-- Claim C9 (implicit): `_generate_color` is total over all integers: for
every integer index, including negative ones, `index % 12` lies in `[0, 12)`
(Python modulo with a positive divisor is non-negative), the palette lookup
never goes out of bounds, and a valid (outline, fill) pair is returned. -/
theorem claim_C9_generate_color_total (index : Int) :
    (0 ≤ index % 12 ∧ index % 12 < 12) ∧ ∃ p, generate_color index = Except.ok p := by
  refine ⟨⟨Int.emod_nonneg index (by norm_num), Int.emod_lt_of_pos index (by norm_num)⟩, ?_⟩
  obtain ⟨c, f, _, _, h⟩ := generate_color_char index
  exact ⟨(c, f), h⟩

/-- Claim C5: for every integer highlight index, the fill color has exactly the
same R, G, B components as the outline color, with alpha `int(0.1 * 255) = 25`. -/
theorem claim_C5_fill_matches_outline (index : Int) (c : String) (f : Nat × Nat × Nat × Nat)
    (h : generate_color index = Except.ok (c, f)) :
    hexRgb c = some (f.1, f.2.1, f.2.2.1) ∧ f.2.2.2 = 1 * 255 / 10 ∧ f.2.2.2 = 25 := by
  obtain ⟨c0, f0, _, hf0, hg0⟩ := generate_color_char index
  rw [h] at hg0
  injection hg0 with hpair
  injection hpair with h1 h2
  subst h1
  subst h2
  simp only [hex_to_rgba, Option.map_eq_some'] at hf0
  obtain ⟨rgb, hrgb, hfe⟩ := hf0
  subst hfe
  exact ⟨by simp [hrgb], rfl, rfl⟩

/-- Witness for C5 at index 0: outline #FF0000, fill (255, 0, 0, 25). -/
theorem claim_C5_witness :
    hexRgb "#FF0000" = some (255, 0, 0) ∧ (25 : Nat) = 1 * 255 / 10 ∧ (25 : Nat) = 25 :=
  claim_C5_fill_matches_outline 0 "#FF0000" (255, 0, 0, 25) rfl

/-- Claim C4: for every element whose position field is absent, highlighting it
raises `ValueError('Position is required to highlight an element')` — both at
the per-element step and through `highlight_element` — and never proceeds to
draw. -/
theorem claim_C4_missing_position_error (m : String → Int × Int) (e : DOMHistoryElement)
    (img : List DrawCmd) (hp : e.position = none) :
    create_highlight_element m e img =
      Except.error ("Position is required to highlight an element", img) ∧
    ∀ rest, highlight_element m (some e :: rest) img =
      (img, some "Position is required to highlight an element") := by
  have h := create_highlight_element_err m e img hp
  refine ⟨h, fun rest => ?_⟩
  simp only [highlight_element, h]

/-- Witness for C4 at the test fixture (highlight index 1 with no position). -/
theorem claim_C4_witness :
    create_highlight_element measureC elemNoPos [] =
      Except.error ("Position is required to highlight an element", []) ∧
    highlight_element measureC [some elemNoPos] [] =
      ([], some "Position is required to highlight an element") :=
  ⟨(claim_C4_missing_position_error measureC elemNoPos [] rfl).1,
   (claim_C4_missing_position_error measureC elemNoPos [] rfl).2 []⟩

/-- Claim C10 (implicit): the missing-position check happens before any
drawing, so whenever `_create_highlight_element` fails, the image carried by
the raised error is exactly the input image — no partial rectangle or label
was drawn for that element. -/
theorem claim_C10_error_leaves_image_unchanged (m : String → Int × Int)
    (e : DOMHistoryElement) (img img2 : List DrawCmd) (s : String)
    (h : create_highlight_element m e img = Except.error (s, img2)) : img2 = img := by
  cases hp : e.position with
  | none =>
    have herr := create_highlight_element_err m e img hp
    rw [herr] at h
    injection h with h1
    injection h1 with h2 h3
    exact h3.symm
  | some p =>
    obtain ⟨c, f, _, hok⟩ := create_highlight_element_ok m e img p hp
    rw [hok] at h
    exact Except.noConfusion h

/-- Witness for C10: failing on a one-command image leaves that image as is. -/
theorem claim_C10_witness :
    ([DrawCmd.text 0 0 "w" (Color.named "white")] : List DrawCmd) =
      [DrawCmd.text 0 0 "w" (Color.named "white")] :=
  claim_C10_error_leaves_image_unchanged measureC elemNoPos
    [DrawCmd.text 0 0 "w" (Color.named "white")]
    [DrawCmd.text 0 0 "w" (Color.named "white")]
    "Position is required to highlight an element" rfl

/-- Claim C1: for every element with position data, the draw call appends the
box rectangle, the label rectangle and the label text, where the label is at
the box's top-right interior corner
(`label_left = left + width - label_width - 2`, `label_top = top + 2`) by
default, and whenever the box's width is smaller than `label_width + 4` or its
height smaller than `label_height + 4`, the label sits directly above the
box's top-right corner (`label_top = top - label_height - 2`), entirely above
the box. -/
theorem claim_C1_label_placement (m : String → Int × Int) (e : DOMHistoryElement)
    (img : List DrawCmd) (p : Position) (lw lh : Int) (c : String) (f : Nat × Nat × Nat × Nat)
    (hp : e.position = some p) (hm : m (toString e.highlight_index) = (lw, lh))
    (hc : generate_color e.highlight_index = Except.ok (c, f)) :
    create_highlight_element m e img =
      Except.ok (img ++ highlightCmds m e.highlight_index p c f) ∧
    (p.width < lw + 4 ∨ p.height < lh + 4 →
      labelPosition p lw lh = (p.left + p.width - lw, p.top - lh - 2) ∧
      (labelPosition p lw lh).2 + lh < p.top) ∧
    (¬(p.width < lw + 4 ∨ p.height < lh + 4) →
      labelPosition p lw lh = (p.left + p.width - lw - 2, p.top + 2)) := by
  obtain ⟨c0, f0, hgc0, hok⟩ := create_highlight_element_ok m e img p hp
  rw [hc] at hgc0
  injection hgc0 with hpair
  injection hpair with h1 h2
  subst h1
  subst h2
  refine ⟨hok, ?_, ?_⟩
  · intro hcond
    have hl : labelPosition p lw lh = (p.left + p.width - lw, p.top - lh - 2) := by
      unfold labelPosition
      rw [if_pos hcond]
    refine ⟨hl, ?_⟩
    rw [hl]
    show p.top - lh - 2 + lh < p.top
    omega
  · intro hcond
    unfold labelPosition
    rw [if_neg hcond]

/-- Witness for C1: the spec §8 overlay scenario — box
`{left: 10, top: 10, width: 20, height: 8}`, index 5, label 25px wide: the
label goes above the box (top 1 = 10 - 7 - 2 < 10), not inside it. -/
theorem claim_C1_witness :
    labelPosition ⟨10, 10, 20, 8⟩ 25 7 = (10 + 20 - 25, 10 - 7 - 2) ∧
    (labelPosition ⟨10, 10, 20, 8⟩ 25 7).2 + 7 < 10 ∧
    create_highlight_element measureWide elemSmallBox [] =
      Except.ok ([] ++ highlightCmds measureWide 5 ⟨10, 10, 20, 8⟩ "#008080" (0, 128, 128, 25)) := by
  have h := claim_C1_label_placement measureWide elemSmallBox [] ⟨10, 10, 20, 8⟩ 25 7
    "#008080" (0, 128, 128, 25) rfl rfl rfl
  have hcond : (⟨10, 10, 20, 8⟩ : Position).width < 25 + 4 ∨
      (⟨10, 10, 20, 8⟩ : Position).height < 7 + 4 := by
    left
    decide
  obtain ⟨h1, h2, _⟩ := h
  obtain ⟨ha, hb⟩ := h2 hcond
  exact ⟨ha, hb, h1⟩

/-- Claim C6: `highlight_element` skips null entries and passes each non-null
element to the per-element draw step exactly once, in list order (it agrees
with the sequential draw over the null-filtered list); in particular an
all-null or empty input completes without drawing and without error. -/
theorem claim_C6_skips_nulls (m : String → Int × Int)
    (elems : List (Option DOMHistoryElement)) (img : List DrawCmd) :
    highlight_element m elems img = drawAll m (elems.filterMap id) img ∧
    (elems.filterMap id = [] → highlight_element m elems img = (img, none)) := by
  have main : ∀ (es : List (Option DOMHistoryElement)) (img2 : List DrawCmd),
      highlight_element m es img2 = drawAll m (es.filterMap id) img2 := by
    intro es
    induction es with
    | nil => intro img2; rfl
    | cons o rest ih =>
      intro img2
      cases o with
      | none => simpa [highlight_element] using ih img2
      | some e =>
        simp only [highlight_element, List.filterMap_cons, id_eq]
        cases hce : create_highlight_element m e img2 with
        | ok img3 => simp [drawAll, hce, ih img3]
        | error pr => obtain ⟨s, img3⟩ := pr; simp [drawAll, hce]
  refine ⟨main elems img, fun hnil => ?_⟩
  rw [main elems img, hnil]
  rfl

/-- Witness for C6: an all-null list draws nothing and reports no error. -/
theorem claim_C6_witness :
    highlight_element measureC [none, none] [] = ([], none) :=
  (claim_C6_skips_nulls measureC [none, none] []).2 rfl

/-- Counterexample to claim C2 as stated: with the no-position element first in
the sequence and a drawable element after it, the call aborts with the
missing-position message leaving the image empty — the later element was NOT
drawn, although drawing it alone appends three commands. This refutes "every
other element in the sequence (including those appearing after the failing
one) is still drawn". -/
theorem claim_C2_counterexample :
    highlight_element measureC [some elemNoPos, some elemWithPos] [] =
      ([], some "Position is required to highlight an element") ∧
    create_highlight_element measureC elemWithPos [] =
      Except.ok [DrawCmd.rectangle 0 0 100 50 (Color.hex "#00FF00") (Color.rgba (0, 255, 0, 25)),
        DrawCmd.rectangle 88 2 98 7 (Color.hex "#00FF00") (Color.hex "#00FF00"),
        DrawCmd.text 88 2 "1" (Color.named "white")] :=
  ⟨rfl, rfl⟩

/-- Claim C2 as amended: a missing-geometry failure is fatal for the whole
`highlight_element` call from the failing element onward — elements drawn
before the failure remain drawn (the image is kept as mutated so far), the
error propagates, and the failing element and all subsequent elements are not
drawn. -/
theorem claim_C2_amended (m : String → Int × Int) (pre : List (Option DOMHistoryElement))
    (bad : DOMHistoryElement) (rest : List (Option DOMHistoryElement)) (img : List DrawCmd)
    (hbad : bad.position = none)
    (hpre : ∀ e : DOMHistoryElement, some e ∈ pre → e.position.isSome = true) :
    highlight_element m (pre ++ some bad :: rest) img =
      ((highlight_element m pre img).1, some "Position is required to highlight an element") ∧
    (highlight_element m pre img).2 = none := by
  induction pre generalizing img with
  | nil =>
    have herr := create_highlight_element_err m bad img hbad
    simp [highlight_element, herr]
  | cons o pre ih =>
    cases o with
    | none =>
      simp only [List.cons_append, highlight_element]
      exact ih img (fun e he => hpre e (List.mem_cons_of_mem _ he))
    | some e =>
      have hes : e.position.isSome = true := hpre e (List.mem_cons_self _ _)
      obtain ⟨p, hp⟩ := Option.isSome_iff_exists.1 hes
      obtain ⟨c, f, _, hok⟩ := create_highlight_element_ok m e img p hp
      simp only [List.cons_append, highlight_element, hok]
      exact ih _ (fun e2 he2 => hpre e2 (List.mem_cons_of_mem _ he2))

/-- Witness for the amended C2: one drawable element and one null before the
failing element, a drawable element after it. -/
theorem claim_C2_witness :
    highlight_element measureC ([some elemWithPos, none] ++ some elemNoPos :: [some elemWithPos]) [] =
      ((highlight_element measureC [some elemWithPos, none] []).1,
        some "Position is required to highlight an element") ∧
    (highlight_element measureC [some elemWithPos, none] []).2 = none :=
  claim_C2_amended measureC [some elemWithPos, none] elemNoPos [some elemWithPos] [] rfl
    (by
      intro e he
      simp only [List.mem_cons, List.not_mem_nil, or_false] at he
      rcases he with h | h
      · cases Option.some.inj h
        rfl
      · exact absurd h (by simp))

/-! ## Round-trip lemmas for the persisted history -/

/-- Optional values round-trip when the present value round-trips and is not
serialized to JSON `null`. -/
theorem parseOpt_roundtrip (f : Json → Option α) (g : α → Json) (o : Option α)
    (hround : ∀ v, o = some v → f (g v) = some v)
    (hnull : ∀ v, o = some v → g v ≠ Json.null) :
    parseOpt f (serOpt g o) = some o := by
  cases o with
  | none => rfl
  | some v =>
    have h1 := hround v rfl
    have h2 := hnull v rfl
    simp only [serOpt]
    cases hgv : g v
    case null => exact absurd hgv h2
    all_goals (simp only [parseOpt]; rw [← hgv, h1]; rfl)

/-- Lists round-trip elementwise. -/
theorem parseList_roundtrip (f : Json → Option α) (g : α → Json) (l : List α)
    (hround : ∀ v ∈ l, f (g v) = some v) :
    parseList f (l.map g) = some l := by
  induction l with
  | nil => rfl
  | cons x xs ih =>
    have hx := hround x (List.mem_cons_self _ _)
    have ihs := ih (fun v hv => hround v (List.mem_cons_of_mem _ hv))
    simp [parseList, hx, ihs]

/-- String-to-string mappings round-trip. -/
theorem parseStrPairs_roundtrip (l : List (String × String)) :
    parseStrPairs (l.map (fun kv => (kv.1, Json.str kv.2))) = some l := by
  induction l with
  | nil => rfl
  | cons kv tl ih => simp [parseStrPairs, ih]

/-- Coordinates round-trip. -/
theorem parseCoordinates_roundtrip (c : Coordinates) :
    parseCoordinates (serCoordinates c) = some c := rfl

/-- CoordinateSets round-trip. -/
theorem parseCoordinateSet_roundtrip (c : CoordinateSet) :
    parseCoordinateSet (serCoordinateSet c) = some c := rfl

/-- ViewportInfo round-trips. -/
theorem parseViewportInfo_roundtrip (v : ViewportInfo) :
    parseViewportInfo (serViewportInfo v) = some v := rfl

/-- Tab-list entries round-trip. -/
theorem parseTabInfo_roundtrip (t : TabInfo) :
    parseTabInfo (serTabInfo t) = some t := rfl

/-- Action results round-trip. -/
theorem parseActionResult_roundtrip (r : ActionResult) :
    parseActionResult (serActionResult r) = some r := by
  obtain ⟨d, ec, er⟩ := r
  cases d <;> cases ec <;> cases er <;> rfl

set_option maxHeartbeats 1000000 in
/-- DOM history elements whose `position` is absent round-trip exactly. -/
theorem parseDOMHistoryElement_roundtrip (e : DOMHistoryElement) (hp : e.position = none) :
    parseDOMHistoryElement (serDOMHistoryElement e) = some e := by
  obtain ⟨tag, xp, hi, path, attrs, sr, cs, pc, vc, vi, pos⟩ := e
  have hp2 : pos = none := hp
  subst hp2
  simp [serDOMHistoryElement, parseDOMHistoryElement,
    parseList_roundtrip parseStr Json.str path (fun v hv => rfl),
    parseStrPairs_roundtrip attrs,
    parseOpt_roundtrip parseStr Json.str cs (fun v hv => rfl)
      (fun v hv h => Json.noConfusion h),
    parseOpt_roundtrip parseCoordinateSet serCoordinateSet pc
      (fun v hv => parseCoordinateSet_roundtrip v) (fun v hv h => Json.noConfusion h),
    parseOpt_roundtrip parseCoordinateSet serCoordinateSet vc
      (fun v hv => parseCoordinateSet_roundtrip v) (fun v hv h => Json.noConfusion h),
    parseOpt_roundtrip parseViewportInfo serViewportInfo vi
      (fun v hv => parseViewportInfo_roundtrip v) (fun v hv h => Json.noConfusion h)]

/-- Browser-state snapshots round-trip when no interacted element carries the
non-serialized `position` field. -/
theorem parseBrowserStateHistory_roundtrip (s : BrowserStateHistory)
    (hs : s.interacted_element.all (fun o =>
      match o with
      | none => true
      | some e => e.position.isNone) = true) :
    parseBrowserStateHistory (serBrowserStateHistory s) = some s := by
  obtain ⟨u, t, tabs, ies, sc⟩ := s
  have hs2 : ∀ o ∈ ies, (match o with
      | none => true
      | some e => e.position.isNone) = true := List.all_eq_true.1 hs
  simp [serBrowserStateHistory, parseBrowserStateHistory,
    parseList_roundtrip parseTabInfo serTabInfo tabs (fun v hv => parseTabInfo_roundtrip v),
    parseList_roundtrip (parseOpt parseDOMHistoryElement) (serOpt serDOMHistoryElement) ies
      (fun o ho => parseOpt_roundtrip parseDOMHistoryElement serDOMHistoryElement o
        (fun e he => parseDOMHistoryElement_roundtrip e
          (Option.isNone_iff_eq_none.1 (by simpa [he] using hs2 o ho)))
        (fun e he h => Json.noConfusion h)),
    parseOpt_roundtrip parseStr Json.str sc (fun v hv => rfl) (fun v hv h => Json.noConfusion h)]

/-- Step records round-trip under the supported-types condition. -/
theorem parseAgentHistory_roundtrip (h : AgentHistory)
    (hsupp : supportedAgentHistory h = true) :
    parseAgentHistory (serAgentHistory h) = some h := by
  obtain ⟨mo, rs, st⟩ := h
  have hsupp2 := hsupp
  unfold supportedAgentHistory at hsupp2
  rw [Bool.and_eq_true] at hsupp2
  obtain ⟨h1, h2⟩ := hsupp2
  simp [serAgentHistory, parseAgentHistory,
    parseOpt_roundtrip some (fun j => j) mo (fun v hv => rfl)
      (fun v hv heq => by
        have heq2 : v = Json.null := heq
        rw [hv, heq2] at h1
        exact Bool.noConfusion h1),
    parseList_roundtrip parseActionResult serActionResult rs
      (fun v hv => parseActionResult_roundtrip v),
    parseBrowserStateHistory_roundtrip st h2]

/-- Claim C7: for every `AgentHistoryList` of supported field types (including
the test's single history entry with an empty `interacted_element` list),
loading the file produced by saving it reproduces every field value exactly:
`load(save(X)) = X`. -/
theorem claim_C7_save_load_roundtrip (l : AgentHistoryList)
    (hsupp : supportedAgentHistoryList l = true) :
    load_from_file (save_to_file l) = some l := by
  obtain ⟨hs⟩ := l
  have hs2 : ∀ h ∈ hs, supportedAgentHistory h = true := List.all_eq_true.1 hsupp
  simp [save_to_file, load_from_file,
    parseList_roundtrip parseAgentHistory serAgentHistory hs
      (fun h hh => parseAgentHistory_roundtrip h (hs2 h hh))]

/-- Witness for C7: the save/load round trip at the repository test's history
list (one entry, empty tabs and interacted elements). -/
theorem claim_C7_witness :
    supportedAgentHistoryList testHistoryList = true ∧
    load_from_file (save_to_file testHistoryList) = some testHistoryList :=
  ⟨rfl, claim_C7_save_load_roundtrip testHistoryList rfl⟩

/-! ## Lemmas on the upload-input search -/

/-- The pre-order collector distributes over forest concatenation. -/
theorem fueList_append (l1 l2 : List DOMNode) :
    fileUploadElementsList (l1 ++ l2) =
      fileUploadElementsList l1 ++ fileUploadElementsList l2 := by
  induction l1 with
  | nil => simp [fileUploadElementsList]
  | cons c cs ih => simp [fileUploadElementsList, ih]

/-- Decomposition of the pre-order collector of a rebuilt parent: the parent
itself (when it is an upload input), then the earlier siblings, the focus
subtree and the later siblings. -/
theorem fue_plugNode (n : DOMNode) (c : DOMCtx) :
    fileUploadElements (plugNode n c) =
      ((if isFileInputTag c.tag c.attrs then [plugNode n c] else []) ++
        fileUploadElementsList c.before.reverse) ++
      (fileUploadElements n ++ fileUploadElementsList c.after) := by
  show fileUploadElements (DOMNode.element c.tag c.attrs (c.before.reverse ++ n :: c.after)) = _
  rw [fileUploadElements, fueList_append]
  rw [show fileUploadElementsList (n :: c.after) =
    fileUploadElements n ++ fileUploadElementsList c.after from rfl]
  simp [plugNode, List.append_assoc]

/-- A subtree search fails exactly when the subtree holds no upload input. -/
theorem findInSubtree_none_iff (t : DOMNode) :
    findInSubtree t = none ↔ fileUploadElements t = [] := by
  simp [findInSubtree, List.head?_eq_none_iff]

/-- A successful subtree search returns an upload input of the subtree. -/
theorem findInSubtree_mem (t r : DOMNode) (h : findInSubtree t = some r) :
    r ∈ fileUploadElements t :=
  List.mem_of_mem_head? (Option.mem_def.2 h)

/-- A successful sibling scan returns an upload input of the scanned forest. -/
theorem findSome?_sub (l : List DOMNode) (r : DOMNode)
    (h : l.findSome? findInSubtree = some r) : r ∈ fileUploadElementsList l := by
  induction l with
  | nil => cases h
  | cons c cs ih =>
    rw [List.findSome?_cons] at h
    cases hc : findInSubtree c with
    | some r2 =>
      rw [hc] at h
      have h2 : some r2 = some r := h
      injection h2 with h3
      subst h3
      exact List.mem_append_left _ (findInSubtree_mem c r2 hc)
    | none =>
      rw [hc] at h
      exact List.mem_append_right _ (ih h)

/-- A sibling scan fails exactly when the scanned forest holds no upload
input. -/
theorem findSome?_none_iff (l : List DOMNode) :
    l.findSome? findInSubtree = none ↔ fileUploadElementsList l = [] := by
  induction l with
  | nil => simp [fileUploadElementsList]
  | cons c cs ih =>
    rw [List.findSome?_cons]
    cases hc : findInSubtree c with
    | some r =>
      have hr := findInSubtree_mem c r hc
      show some r = none ↔ fileUploadElements c ++ fileUploadElementsList cs = []
      constructor
      · intro h
        exact Option.noConfusion h
      · intro h
        rw [List.append_eq_nil] at h
        rw [h.1] at hr
        exact absurd hr (List.not_mem_nil r)
    | none =>
      have hcn : fileUploadElements c = [] := (findInSubtree_none_iff c).1 hc
      show List.findSome? findInSubtree cs = none ↔
        fileUploadElements c ++ fileUploadElementsList cs = []
      rw [hcn, List.nil_append]
      exact ih

/-- Upload inputs of the focus subtree stay upload inputs of the rebuilt
parent. -/
theorem mem_fue_plugNode (n : DOMNode) (c : DOMCtx) (x : DOMNode)
    (h : x ∈ fileUploadElements n) : x ∈ fileUploadElements (plugNode n c) := by
  rw [fue_plugNode]
  simp [h]

/-- Upload inputs of a subtree stay upload inputs of the whole rebuilt tree. -/
theorem mem_fue_foldl (path : List DOMCtx) :
    ∀ m x : DOMNode, x ∈ fileUploadElements m →
      x ∈ fileUploadElements (path.foldl plugNode m) := by
  induction path with
  | nil => intro m x h; exact h
  | cons c rest ih => intro m x h; exact ih _ _ (mem_fue_plugNode m c x h)

/-- The rebuilt parent holds no upload input exactly when the parent is not an
input and neither the siblings nor the focus subtree hold one. -/
theorem fue_plugNode_eq_nil_iff (n : DOMNode) (c : DOMCtx) :
    fileUploadElements (plugNode n c) = [] ↔
      (isFileInput (plugNode n c) = false ∧
       fileUploadElementsList c.before.reverse = [] ∧
       fileUploadElements n = [] ∧
       fileUploadElementsList c.after = []) := by
  rw [fue_plugNode]
  rw [show isFileInput (plugNode n c) = isFileInputTag c.tag c.attrs from rfl]
  cases hit : isFileInputTag c.tag c.attrs <;> simp [List.append_eq_nil, and_assoc]

/-- One-step unfolding of the zipper search. -/
theorem get_unfold (n : DOMNode) (path : List DOMCtx) :
    get_file_upload_element ⟨n, path⟩ =
      match findInSubtree n with
      | some r => some r
      | none => searchUp n path := rfl

/-- The upward search stops at the root. -/
theorem searchUp_nil (n : DOMNode) : searchUp n [] = none := rfl

/-- One-step unfolding of the upward search. -/
theorem searchUp_cons (n : DOMNode) (c : DOMCtx) (rest : List DOMCtx) :
    searchUp n (c :: rest) =
      (if isFileInput (plugNode n c) then some (plugNode n c)
       else
        match c.before.reverse.findSome? findInSubtree with
        | some r => some r
        | none =>
          match c.after.findSome? findInSubtree with
          | some r => some r
          | none => searchUp (plugNode n c) rest) := rfl

/-- Moving one context up preserves failure of the search: starting at the
focus with context `c :: rest` fails exactly when starting at the rebuilt
parent with context `rest` fails. -/
theorem get_step_none (n : DOMNode) (c : DOMCtx) (rest : List DOMCtx) :
    (get_file_upload_element ⟨n, c :: rest⟩ = none ↔
      get_file_upload_element ⟨plugNode n c, rest⟩ = none) := by
  rw [get_unfold, get_unfold]
  cases hf : findInSubtree n with
  | some r =>
    have hne : fileUploadElements (plugNode n c) ≠ [] := by
      intro h0
      have hdec := (fue_plugNode_eq_nil_iff n c).1 h0
      have hmem := findInSubtree_mem n r hf
      rw [hdec.2.2.1] at hmem
      exact absurd hmem (List.not_mem_nil r)
    cases hf2 : findInSubtree (plugNode n c) with
    | some r2 =>
      show some r = none ↔ some r2 = none
      simp
    | none => exact absurd ((findInSubtree_none_iff _).1 hf2) hne
  | none =>
    rw [searchUp_cons]
    have hfn : fileUploadElements n = [] := (findInSubtree_none_iff n).1 hf
    cases hip : isFileInput (plugNode n c) with
    | true =>
      have hne : fileUploadElements (plugNode n c) ≠ [] := by
        intro h0
        have hdec := (fue_plugNode_eq_nil_iff n c).1 h0
        rw [hip] at hdec
        exact Bool.noConfusion hdec.1
      cases hf2 : findInSubtree (plugNode n c) with
      | some r2 => simp [hip]
      | none => exact absurd ((findInSubtree_none_iff _).1 hf2) hne
    | false =>
      cases hb : c.before.reverse.findSome? findInSubtree with
      | some rb =>
        have hbne : fileUploadElementsList c.before.reverse ≠ [] := by
          intro h0
          rw [(findSome?_none_iff _).2 h0] at hb
          exact Option.noConfusion hb
        have hne : fileUploadElements (plugNode n c) ≠ [] := by
          intro h0
          exact absurd ((fue_plugNode_eq_nil_iff n c).1 h0).2.1 hbne
        cases hf2 : findInSubtree (plugNode n c) with
        | some r2 => simp [hip]
        | none => exact absurd ((findInSubtree_none_iff _).1 hf2) hne
      | none =>
        cases ha : c.after.findSome? findInSubtree with
        | some ra =>
          have hane : fileUploadElementsList c.after ≠ [] := by
            intro h0
            rw [(findSome?_none_iff _).2 h0] at ha
            exact Option.noConfusion ha
          have hne : fileUploadElements (plugNode n c) ≠ [] := by
            intro h0
            exact absurd ((fue_plugNode_eq_nil_iff n c).1 h0).2.2.2 hane
          cases hf2 : findInSubtree (plugNode n c) with
          | some r2 => simp [hip]
          | none => exact absurd ((findInSubtree_none_iff _).1 hf2) hne
        | none =>
          have hparent : fileUploadElements (plugNode n c) = [] :=
            (fue_plugNode_eq_nil_iff n c).2
              ⟨hip, (findSome?_none_iff _).1 hb, hfn, (findSome?_none_iff _).1 ha⟩
          have hf2 : findInSubtree (plugNode n c) = none :=
            (findInSubtree_none_iff _).2 hparent
          simp [hip, hf2]

/-- The search fails exactly when the whole rebuilt tree holds no upload
input. -/
theorem get_none_iff (path : List DOMCtx) :
    ∀ n : DOMNode, get_file_upload_element ⟨n, path⟩ = none ↔
      fileUploadElements (plug ⟨n, path⟩) = [] := by
  induction path with
  | nil =>
    intro n
    rw [get_unfold]
    cases hf : findInSubtree n with
    | some r =>
      have hmem := findInSubtree_mem n r hf
      show some r = none ↔ fileUploadElements n = []
      constructor
      · intro h
        exact Option.noConfusion h
      · intro h
        rw [h] at hmem
        exact absurd hmem (List.not_mem_nil r)
    | none =>
      show searchUp n [] = none ↔ fileUploadElements n = []
      rw [searchUp_nil]
      simp [(findInSubtree_none_iff n).1 hf]
  | cons c rest ih =>
    intro n
    rw [show plug (⟨n, c :: rest⟩ : DOMLoc) = plug ⟨plugNode n c, rest⟩ from rfl]
    rw [get_step_none n c rest]
    exact ih (plugNode n c)

/-- A successful search returns an upload input of the whole rebuilt tree. -/
theorem get_mem (path : List DOMCtx) :
    ∀ n r : DOMNode, get_file_upload_element ⟨n, path⟩ = some r →
      r ∈ fileUploadElements (plug ⟨n, path⟩) := by
  induction path with
  | nil =>
    intro n r h
    rw [get_unfold] at h
    cases hf : findInSubtree n with
    | some r2 =>
      rw [hf] at h
      have h2 : some r2 = some r := h
      injection h2 with h3
      subst h3
      exact findInSubtree_mem n r2 hf
    | none =>
      rw [hf, searchUp_nil] at h
      exact Option.noConfusion h
  | cons c rest ih =>
    intro n r h
    rw [get_unfold] at h
    rw [show plug (⟨n, c :: rest⟩ : DOMLoc) = plug ⟨plugNode n c, rest⟩ from rfl]
    cases hf : findInSubtree n with
    | some r2 =>
      rw [hf] at h
      have h2 : some r2 = some r := h
      injection h2 with h3
      subst h3
      exact mem_fue_foldl rest _ _ (mem_fue_plugNode n c r2 (findInSubtree_mem n r2 hf))
    | none =>
      rw [hf] at h
      have h2 : searchUp n (c :: rest) = some r := h
      rw [searchUp_cons] at h2
      have hfn : fileUploadElements n = [] := (findInSubtree_none_iff n).1 hf
      cases hip : isFileInput (plugNode n c) with
      | true =>
        simp only [hip, if_true] at h2
        injection h2 with h3
        subst h3
        have hmem : plugNode n c ∈ fileUploadElements (plugNode n c) := by
          rw [fue_plugNode]
          rw [show isFileInputTag c.tag c.attrs = true from hip]
          simp
        exact mem_fue_foldl rest _ _ hmem
      | false =>
        simp only [hip, Bool.false_eq_true, if_false] at h2
        cases hb : c.before.reverse.findSome? findInSubtree with
        | some rb =>
          rw [hb] at h2
          have h3 : some rb = some r := h2
          injection h3 with h4
          subst h4
          have hm2 : rb ∈ fileUploadElements (plugNode n c) := by
            rw [fue_plugNode]
            simp [findSome?_sub _ rb hb]
          exact mem_fue_foldl rest _ _ hm2
        | none =>
          rw [hb] at h2
          cases ha : c.after.findSome? findInSubtree with
          | some ra =>
            rw [ha] at h2
            have h3 : some ra = some r := h2
            injection h3 with h4
            subst h4
            have hm2 : ra ∈ fileUploadElements (plugNode n c) := by
              rw [fue_plugNode]
              simp [findSome?_sub _ ra ha]
            exact mem_fue_foldl rest _ _ hm2
          | none =>
            rw [ha] at h2
            have h3 : searchUp (plugNode n c) rest = some r := h2
            have hparent : fileUploadElements (plugNode n c) = [] :=
              (fue_plugNode_eq_nil_iff n c).2
                ⟨hip, (findSome?_none_iff _).1 hb, hfn, (findSome?_none_iff _).1 ha⟩
            have hfp : findInSubtree (plugNode n c) = none :=
              (findInSubtree_none_iff _).2 hparent
            have hget : get_file_upload_element ⟨plugNode n c, rest⟩ = some r := by
              rw [get_unfold, hfp]
              exact h3
            exact ih _ _ hget

/-- Claim C8: for every start location whose reachable graph (the whole rebuilt
tree) holds no upload-capable input, `get_file_upload_element` returns none;
and whenever the tree holds exactly one upload-capable input, the search
returns that input regardless of which node it starts from. -/
theorem claim_C8_upload_search (l : DOMLoc) :
    (fileUploadElements (plug l) = [] → get_file_upload_element l = none) ∧
    (∀ u, fileUploadElements (plug l) = [u] → get_file_upload_element l = some u) := by
  obtain ⟨n, path⟩ := l
  refine ⟨fun h => (get_none_iff path n).2 h, fun u hu => ?_⟩
  cases hg : get_file_upload_element ⟨n, path⟩ with
  | none =>
    have h0 := (get_none_iff path n).1 hg
    rw [hu] at h0
    exact absurd h0 (by simp)
  | some r =>
    have hr := get_mem path n r hg
    rw [hu, List.mem_singleton] at hr
    rw [hr]

/-- Witness for C8: the repository test's tree body > div > input[type=file]
found from the root and from a sibling-less start deep in the tree, and the
input-free tree yielding none. -/
theorem claim_C8_witness :
    get_file_upload_element ⟨treeWithInput, []⟩ = some fileInputNode ∧
    get_file_upload_element divStartLoc = some fileInputNode ∧
    get_file_upload_element ⟨treeWithoutInput, []⟩ = none :=
  ⟨(claim_C8_upload_search ⟨treeWithInput, []⟩).2 fileInputNode rfl,
   (claim_C8_upload_search divStartLoc).2 fileInputNode rfl,
   (claim_C8_upload_search ⟨treeWithoutInput, []⟩).1 rfl⟩

end BrowserUse
